import Mathlib

/-!
Shallow embedding of `src/repo_miner.py` from the data-collection-pipeline
repository, and proofs about its two fetch operations.

Modelling conventions:
* Python strings are Lean `String`s, except commit messages, which are lists
  of characters so that line-splitting can be reasoned about by induction.
* `datetime` values are integers (seconds); `isoformat` is an injective
  rendering of such a value, modelled as the identity on the stored value
  (no claim here concerns the concrete rendered text).
* The lazy paginated streams returned by the GitHub client are lists; each
  fetch loop additionally returns the number of items it pulled from its
  stream, so that laziness properties can be stated.
* The `GITHUB_TOKEN` environment variable is an `Option String` (absent =
  `none`); `os.getenv` yields `none` resp. the stored string, and Python's
  falsiness test `if not token` holds exactly for `none` and `some ""`.
* A failing `get_repo` call (upstream rejection) is the `Except.error` case
  of the stream argument; `RuntimeError` on a missing token is
  `FetchError.missingCredential`.
-/

namespace RepoMiner

/-- The line-boundary characters of Python's `str.splitlines`. -/
def isLineBreak (c : Char) : Bool :=
  c = '\n' || c = '\r' || c = '\x0b' || c = '\x0c' ||
  c = '\x1c' || c = '\x1d' || c = '\x1e' || c = '\x85' ||
  c = '\u2028' || c = '\u2029'

/-- Commit authorship metadata (`commit.commit.author`). -/
structure GitAuthor where
  name : String
  email : String
  date : Int
deriving DecidableEq

/-- The `commit.commit` payload: authorship metadata and full message. -/
structure CommitData where
  author : Option GitAuthor
  message : List Char
deriving DecidableEq

/-- An upstream commit item as returned by `repo.get_commits()`. -/
structure UpstreamCommit where
  sha : String
  commit : CommitData
deriving DecidableEq

/-- One row of the commits table (columns sha, author, email, date, message). -/
structure CommitRecord where
  sha : String
  author : Option String
  email : Option String
  date : Option Int
  message : List Char
deriving DecidableEq

/-- A pandas DataFrame: a fixed column header plus the list of rows. -/
structure DataFrame (α : Type) where
  columns : List String
  rows : List α
deriving DecidableEq

/-- The two error kinds of the tool. -/
inductive FetchError where
  | missingCredential
  | upstreamError
deriving DecidableEq

/-- `message = ""` followed by `if commit_data.message: message =
commit_data.message.splitlines()[0]`: the first element of `splitlines` is
the prefix before the first line-boundary character. -/
def firstLine (msg : List Char) : List Char :=
  if msg.isEmpty then [] else msg.takeWhile (fun c => !isLineBreak c)

/-- The loop body of `fetch_commits` (lines 42 to 62): author, email and date
start as `None` and are filled together when `commit_data.author` is truthy;
the message is first-line truncated. -/
def normalizeCommit (c : UpstreamCommit) : CommitRecord :=
  match c.commit.author with
  | some a =>
      { sha := c.sha, author := some a.name, email := some a.email,
        date := some a.date, message := firstLine c.commit.message }
  | none =>
      { sha := c.sha, author := none, email := none, date := none,
        message := firstLine c.commit.message }

/-- Break test of the commit loop: `max_commits is not None and i >= max_commits`. -/
def commitBreak (maxCommits : Option Nat) (i : Nat) : Bool :=
  match maxCommits with
  | none => false
  | some m => decide (m ≤ i)

/-- The commit fetch loop (lines 37 to 62): pulls an item, runs the break
test, otherwise appends the normalized record. Also counts pulled items. -/
def commitLoop (maxCommits : Option Nat) : Nat → List UpstreamCommit → List CommitRecord × Nat
  | _, [] => ([], 0)
  | i, c :: rest =>
    if commitBreak maxCommits i then ([], 1)
    else
      ((commitLoop maxCommits (i + 1) rest).1.cons (normalizeCommit c),
       (commitLoop maxCommits (i + 1) rest).2 + 1)

/-- The fixed header of the commits table. -/
def commitColumns : List String := ["sha", "author", "email", "date", "message"]

/-- `fetch_commits(repo_name, max_commits)`. `env` is the `GITHUB_TOKEN`
variable; `upstream` is the commit stream produced by `get_repo`/`get_commits`
(`Except.error` models an upstream rejection). -/
def fetch_commits (env : Option String) (upstream : Except Unit (List UpstreamCommit))
    (maxCommits : Option Nat) : Except FetchError (DataFrame CommitRecord) :=
  let token := env.getD ""
  if token = "" then Except.error FetchError.missingCredential
  else
    match upstream with
    | Except.error _ => Except.error FetchError.upstreamError
    | Except.ok commits =>
        Except.ok { columns := commitColumns, rows := (commitLoop maxCommits 0 commits).1 }

/-- The reporter of an issue (`issue.user`). -/
structure UpstreamUser where
  login : String
deriving DecidableEq

/-- An upstream issue item as returned by `repo.get_issues(state=state)`.
`pull_request` is the pull-request linkage data (`some` iff present). -/
structure UpstreamIssue where
  id : Int
  number : Int
  title : String
  user : Option UpstreamUser
  state : String
  created_at : Option Int
  closed_at : Option Int
  comments : Nat
  pull_request : Option Unit
deriving DecidableEq

/-- One row of the issues table. -/
structure IssueRecord where
  id : Int
  number : Int
  title : String
  user : Option String
  state : String
  created_at : Option Int
  closed_at : Option Int
  comments : Nat
  open_duration_days : Option Int
deriving DecidableEq

/-- Seconds per day; `timedelta.days` floor-divides the span by this. -/
def secondsPerDay : Int := 86400

/-- The loop body of `fetch_issues` (lines 93 to 114): timestamps pass
through when present, `open_duration_days` is `(closed - created).days`
(floor division) when both are present, else `None`. -/
def mkIssueRecord (issue : UpstreamIssue) : IssueRecord :=
  { id := issue.id
    number := issue.number
    title := issue.title
    user := Option.map UpstreamUser.login issue.user
    state := issue.state
    created_at := issue.created_at
    closed_at := issue.closed_at
    comments := issue.comments
    open_duration_days :=
      match issue.closed_at, issue.created_at with
      | some cl, some cr => some (Int.fdiv (cl - cr) secondsPerDay)
      | _, _ => none }

/-- Break test of the issue loop: `if max_issues and idx >= max_issues` —
`max_issues` is falsy both when absent and when zero. -/
def issueBreak (maxIssues : Option Nat) (idx : Nat) : Bool :=
  match maxIssues with
  | none => false
  | some m => decide (0 < m ∧ m ≤ idx)

/-- The issue fetch loop (lines 86 to 114): pulls an item, runs the break
test, then skips pull requests, otherwise appends the normalized record.
Also counts pulled items. -/
def issueLoop (maxIssues : Option Nat) : Nat → List UpstreamIssue → List IssueRecord × Nat
  | _, [] => ([], 0)
  | idx, issue :: rest =>
    if issueBreak maxIssues idx then ([], 1)
    else if issue.pull_request.isSome then
      ((issueLoop maxIssues (idx + 1) rest).1,
       (issueLoop maxIssues (idx + 1) rest).2 + 1)
    else
      ((issueLoop maxIssues (idx + 1) rest).1.cons (mkIssueRecord issue),
       (issueLoop maxIssues (idx + 1) rest).2 + 1)

/-- The fixed header of the issues table. -/
def issueColumns : List String :=
  ["id", "number", "title", "user", "state", "created_at", "closed_at",
   "comments", "open_duration_days"]

/-- `fetch_issues(repo_name, state, max_issues)`. `repo` maps the state
filter to the stream `repo.get_issues(state=state)` yields (the filter is
passed through to the source; `Except.error` models upstream rejection). -/
def fetch_issues (env : Option String) (repo : String → Except Unit (List UpstreamIssue))
    (state : String) (maxIssues : Option Nat) : Except FetchError (DataFrame IssueRecord) :=
  let token := env.getD ""
  if token = "" then Except.error FetchError.missingCredential
  else
    match repo state with
    | Except.error _ => Except.error FetchError.upstreamError
    | Except.ok issues =>
        Except.ok { columns := issueColumns, rows := (issueLoop maxIssues 0 issues).1 }

/-! ### Lemmas about the commit loop -/

theorem commitLoop_length_some (m : Nat) (cs : List UpstreamCommit) :
    ∀ i : Nat, ((commitLoop (some m) i cs).1).length = min cs.length (m - i) := by
  induction cs with
  | nil => intro i; simp [commitLoop]
  | cons c rest ih =>
    intro i
    by_cases h : m ≤ i
    · have h0 : m - i = 0 := Nat.sub_eq_zero_of_le h
      simp [commitLoop, commitBreak, h, h0]
    · simp [commitLoop, commitBreak, h, ih (i + 1)]
      omega

theorem commitLoop_length_none (cs : List UpstreamCommit) :
    ∀ i : Nat, ((commitLoop none i cs).1).length = cs.length := by
  induction cs with
  | nil => intro i; simp [commitLoop]
  | cons c rest ih => intro i; simp [commitLoop, commitBreak, ih (i + 1)]

theorem commitLoop_pulls_some (m : Nat) (cs : List UpstreamCommit) :
    ∀ i : Nat, (commitLoop (some m) i cs).2 = min cs.length (m - i + 1) := by
  induction cs with
  | nil => intro i; simp [commitLoop]
  | cons c rest ih =>
    intro i
    by_cases h : m ≤ i
    · simp [commitLoop, commitBreak, h]
    · simp [commitLoop, commitBreak, h, ih (i + 1)]
      omega

theorem commitLoop_mem (maxc : Option Nat) (cs : List UpstreamCommit) :
    ∀ (i : Nat) (r : CommitRecord),
      r ∈ (commitLoop maxc i cs).1 → ∃ c, c ∈ cs ∧ r = normalizeCommit c := by
  induction cs with
  | nil => intro i r h; simp [commitLoop] at h
  | cons a rest ih =>
    intro i r h
    by_cases hb : commitBreak maxc i
    · simp [commitLoop, hb] at h
    · simp only [commitLoop, hb, Bool.false_eq_true, if_false,
        List.mem_cons] at h
      rcases h with h | h
      · exact ⟨a, List.mem_cons_self a rest, h⟩
      · obtain ⟨c, hc, hr⟩ := ih (i + 1) r h
        exact ⟨c, List.mem_cons_of_mem a hc, hr⟩

/-! ### Lemmas about the issue loop -/

theorem issueLoop_rows_some_pos (m : Nat) (hm : 0 < m) (issues : List UpstreamIssue) :
    ∀ idx : Nat,
      (issueLoop (some m) idx issues).1 =
        ((issues.take (m - idx)).filter (fun i => i.pull_request.isNone)).map mkIssueRecord := by
  induction issues with
  | nil => intro idx; simp [issueLoop]
  | cons a rest ih =>
    intro idx
    by_cases h : m ≤ idx
    · have h0 : m - idx = 0 := Nat.sub_eq_zero_of_le h
      simp [issueLoop, issueBreak, hm, h, h0]
    · have hstep : m - idx = (m - (idx + 1)) + 1 := by omega
      rw [hstep]
      cases hpr : a.pull_request with
      | none => simp [issueLoop, issueBreak, hm, h, hpr, ih (idx + 1)]
      | some v => simp [issueLoop, issueBreak, hm, h, hpr, ih (idx + 1)]

theorem issueLoop_rows_none (issues : List UpstreamIssue) :
    ∀ idx : Nat,
      (issueLoop none idx issues).1 =
        (issues.filter (fun i => i.pull_request.isNone)).map mkIssueRecord := by
  induction issues with
  | nil => intro idx; simp [issueLoop]
  | cons a rest ih =>
    intro idx
    cases hpr : a.pull_request with
    | none => simp [issueLoop, issueBreak, hpr, ih (idx + 1)]
    | some v => simp [issueLoop, issueBreak, hpr, ih (idx + 1)]

theorem issueLoop_cap_zero (issues : List UpstreamIssue) :
    ∀ idx : Nat, issueLoop (some 0) idx issues = issueLoop none idx issues := by
  induction issues with
  | nil => intro idx; rfl
  | cons a rest ih => intro idx; simp [issueLoop, issueBreak, ih (idx + 1)]

theorem issueLoop_pulls_some (m : Nat) (hm : 0 < m) (issues : List UpstreamIssue) :
    ∀ idx : Nat, (issueLoop (some m) idx issues).2 = min issues.length (m - idx + 1) := by
  induction issues with
  | nil => intro idx; simp [issueLoop]
  | cons a rest ih =>
    intro idx
    by_cases h : m ≤ idx
    · simp [issueLoop, issueBreak, hm, h]
    · cases hpr : a.pull_request with
      | none =>
        simp [issueLoop, issueBreak, hm, h, hpr, ih (idx + 1)]
        omega
      | some v =>
        simp [issueLoop, issueBreak, hm, h, hpr, ih (idx + 1)]
        omega

theorem issueLoop_mem (maxi : Option Nat) (issues : List UpstreamIssue) :
    ∀ (idx : Nat) (r : IssueRecord),
      r ∈ (issueLoop maxi idx issues).1 →
        ∃ i, i ∈ issues ∧ i.pull_request = none ∧ r = mkIssueRecord i := by
  induction issues with
  | nil => intro idx r h; simp [issueLoop] at h
  | cons a rest ih =>
    intro idx r h
    by_cases hb : issueBreak maxi idx
    · simp [issueLoop, hb] at h
    · cases hpr : a.pull_request with
      | some v =>
        simp only [issueLoop, hb, Bool.false_eq_true, if_false, hpr,
          Option.isSome_some, if_true] at h
        obtain ⟨i, hi, hp, hr⟩ := ih (idx + 1) r h
        exact ⟨i, List.mem_cons_of_mem a hi, hp, hr⟩
      | none =>
        simp only [issueLoop, hb, Bool.false_eq_true, if_false, hpr,
          Option.isSome_none, List.mem_cons] at h
        rcases h with h | h
        · exact ⟨a, List.mem_cons_self a rest, hpr, h⟩
        · obtain ⟨i, hi, hp, hr⟩ := ih (idx + 1) r h
          exact ⟨i, List.mem_cons_of_mem a hi, hp, hr⟩

/-! ### Lemmas about first-line truncation -/

theorem dropWhile_head_false (p : Char → Bool) (l : List Char) :
    ∀ (ch : Char) (rest : List Char), l.dropWhile p = ch :: rest → p ch = false := by
  induction l with
  | nil => intro ch rest h; simp [List.dropWhile] at h
  | cons a l ih =>
    intro ch rest h
    by_cases hp : p a
    · rw [List.dropWhile_cons] at h
      simp only [hp, if_true] at h
      exact ih ch rest h
    · rw [List.dropWhile_cons] at h
      simp only [hp, Bool.false_eq_true, if_false, List.cons.injEq] at h
      rw [← h.1]
      simpa using hp

theorem mem_firstLine (msg : List Char) (ch : Char) (h : ch ∈ firstLine msg) :
    isLineBreak ch = false := by
  unfold firstLine at h
  by_cases he : msg.isEmpty
  · simp [he] at h
  · simp only [he, Bool.false_eq_true, if_false] at h
    have := List.mem_takeWhile_imp h
    simpa using this

theorem firstLine_decomp (msg : List Char) :
    ∃ rest, msg = firstLine msg ++ rest ∧
      (rest = [] ∨ ∃ ch rest2, rest = ch :: rest2 ∧ isLineBreak ch = true) := by
  unfold firstLine
  by_cases he : msg.isEmpty
  · have hmsg : msg = [] := by simpa using he
    subst hmsg
    exact ⟨[], by simp, Or.inl rfl⟩
  · refine ⟨msg.dropWhile (fun c => !isLineBreak c), ?_, ?_⟩
    · simp [he, List.takeWhile_append_dropWhile]
    · cases hd : msg.dropWhile (fun c => !isLineBreak c) with
      | nil => exact Or.inl rfl
      | cons ch rest2 =>
        refine Or.inr ⟨ch, rest2, rfl, ?_⟩
        have := dropWhile_head_false (fun c => !isLineBreak c) msg ch rest2 hd
        simpa using this

theorem firstLine_of_nil : firstLine [] = [] := rfl

/-! ### Inversion of a successful fetch -/

theorem fetch_commits_ok_rows (t : String) (ht : t ≠ "") (cs : List UpstreamCommit)
    (maxc : Option Nat) (df : DataFrame CommitRecord)
    (hdf : fetch_commits (some t) (Except.ok cs) maxc = Except.ok df) :
    df.columns = commitColumns ∧ df.rows = (commitLoop maxc 0 cs).1 := by
  simp only [fetch_commits, Option.getD_some, if_neg ht, Except.ok.injEq] at hdf
  rw [← hdf]
  exact ⟨rfl, rfl⟩

theorem fetch_issues_ok_rows (t : String) (ht : t ≠ "")
    (issues : String → List UpstreamIssue) (state : String) (maxi : Option Nat)
    (df : DataFrame IssueRecord)
    (hdf : fetch_issues (some t) (fun s => Except.ok (issues s)) state maxi = Except.ok df) :
    df.columns = issueColumns ∧ df.rows = (issueLoop maxi 0 (issues state)).1 := by
  simp only [fetch_issues, Option.getD_some, if_neg ht, Except.ok.injEq] at hdf
  rw [← hdf]
  exact ⟨rfl, rfl⟩

/-! ### Concrete fixtures used by witnesses and counterexamples -/

/-- A commit with no authorship metadata and a two-line message. -/
def sampleCommit : UpstreamCommit :=
  { sha := "abc123", commit := { author := none, message := ['h', 'i', '\n', 'x'] } }

/-- A commit with authorship metadata and a one-line message. -/
def authoredCommit : UpstreamCommit :=
  { sha := "def456",
    commit := { author := some { name := "Alice", email := "a@example.com", date := 100 },
                message := ['o', 'k'] } }

/-- An issue-shaped item carrying pull-request linkage. -/
def samplePR : UpstreamIssue :=
  { id := 1, number := 101, title := "a pr", user := none, state := "open",
    created_at := none, closed_at := none, comments := 0, pull_request := some () }

/-- A plain issue, created at time 0 and closed 23 hours (82800 s) later. -/
def sampleIssue : UpstreamIssue :=
  { id := 2, number := 102, title := "an issue", user := some { login := "alice" },
    state := "closed", created_at := some 0, closed_at := some 82800, comments := 3,
    pull_request := none }

/-! ### The claims -/

/-- C1: with a token present, `fetch_commits` on an upstream stream of `k`
commits returns a table whose row count is `min k m` under a given cap `m`,
and `k` with no cap (so a cap of zero yields an empty table), and whose
header is always the fixed column list sha, author, email, date, message —
also for the empty stream. -/
theorem fetch_commits_row_count (t : String) (ht : t ≠ "") (cs : List UpstreamCommit)
    (maxc : Option Nat) (df : DataFrame CommitRecord)
    (hdf : fetch_commits (some t) (Except.ok cs) maxc = Except.ok df) :
    df.columns = ["sha", "author", "email", "date", "message"] ∧
    df.rows.length = maxc.elim cs.length (fun m => min cs.length m) := by
  obtain ⟨hcols, hrows⟩ := fetch_commits_ok_rows t ht cs maxc df hdf
  refine ⟨hcols, ?_⟩
  rw [hrows]
  cases maxc with
  | none => simpa using commitLoop_length_none cs 0
  | some m => simpa using commitLoop_length_some m cs 0

/-- Witness for C1: a two-commit stream with cap 1 gives 1 = min 2 1 rows. -/
theorem fetch_commits_row_count_witness :
    (DataFrame.mk commitColumns [normalizeCommit sampleCommit]).columns =
      ["sha", "author", "email", "date", "message"] ∧
    (DataFrame.mk commitColumns [normalizeCommit sampleCommit]).rows.length =
      (some 1 : Option Nat).elim [sampleCommit, authoredCommit].length
        (fun m => min [sampleCommit, authoredCommit].length m) :=
  fetch_commits_row_count "x" (by decide) [sampleCommit, authoredCommit] (some 1)
    (DataFrame.mk commitColumns [normalizeCommit sampleCommit]) rfl

/-- C2 counterexample: with cap 1 and upstream stream [pull request, plain
issue] — one qualifying issue available, one pull request interleaved before
it — `fetch_issues` returns 0 rows, not 1: the pull request consumed the only
cap position, because the cap test runs on the raw index before the skip. -/
theorem fetch_issues_pr_consumes_cap :
    ¬ (∀ df, fetch_issues (some "x") (fun _ => Except.ok [samplePR, sampleIssue]) "all"
          (some 1) = Except.ok df → df.rows.length = 1) := by
  intro h
  have h0 := h (DataFrame.mk issueColumns []) rfl
  simp at h0

/-- C2 (amended): pull-request items do count against the maximum — the cap
test compares the raw iteration index before the pull-request skip — so with
a positive cap m the table consists of exactly the qualifying
(non-pull-request) issues among the first m upstream items. -/
theorem fetch_issues_cap_counts_raw_index (t : String) (ht : t ≠ "")
    (issues : String → List UpstreamIssue) (state : String) (m : Nat) (hm : 0 < m) :
    fetch_issues (some t) (fun s => Except.ok (issues s)) state (some m) =
      Except.ok (DataFrame.mk issueColumns
        ((((issues state).take m).filter
          (fun i => i.pull_request.isNone)).map mkIssueRecord)) := by
  have h := issueLoop_rows_some_pos m hm (issues state) 0
  simp only [Nat.sub_zero] at h
  simp [fetch_issues, ht, h]

/-- Witness for C2 (amended) at cap 1 over [pull request, plain issue]. -/
theorem fetch_issues_cap_counts_raw_index_witness :
    fetch_issues (some "x") (fun s => Except.ok ((fun _ => [samplePR, sampleIssue]) s))
        "all" (some 1) =
      Except.ok (DataFrame.mk issueColumns
        (((((fun _ => [samplePR, sampleIssue]) "all").take 1).filter
          (fun i => i.pull_request.isNone)).map mkIssueRecord)) :=
  fetch_issues_cap_counts_raw_index "x" (by decide) (fun _ => [samplePR, sampleIssue])
    "all" 1 (by decide)

/-- C3 counterexample: a maximum of zero does not yield an empty table — with
one qualifying issue and maximum 0, `fetch_issues` returns 1 row: the
truthiness test `if max_issues and ...` treats 0 as falsy, so a zero cap
disables capping (unlike `fetch_commits`, whose test is `is not None`). -/
theorem fetch_issues_zero_cap_not_empty :
    ¬ (∀ df, fetch_issues (some "x") (fun _ => Except.ok [sampleIssue]) "all" (some 0) =
          Except.ok df → df.rows.length = 0) := by
  intro h
  have h0 := h (DataFrame.mk issueColumns [mkIssueRecord sampleIssue]) rfl
  simp at h0

/-- C3 (amended): for a given positive maximum m the table has at most m rows;
a maximum of zero, however, is treated as an absent cap and behaves exactly
like passing no maximum, returning all qualifying issues rather than none. -/
theorem fetch_issues_cap_bound (t : String) (ht : t ≠ "")
    (repo : String → Except Unit (List UpstreamIssue)) (state : String)
    (m : Nat) (hm : 0 < m) (df : DataFrame IssueRecord)
    (hdf : fetch_issues (some t) repo state (some m) = Except.ok df) :
    df.rows.length ≤ m ∧
    fetch_issues (some t) repo state (some 0) = fetch_issues (some t) repo state none := by
  constructor
  · cases hre : repo state with
    | error e => simp [fetch_issues, ht, hre] at hdf
    | ok issues =>
      have hrows : df.rows = (issueLoop (some m) 0 issues).1 := by
        simp only [fetch_issues, Option.getD_some, if_neg ht, hre, Except.ok.injEq] at hdf
        rw [← hdf]
      rw [hrows, issueLoop_rows_some_pos m hm issues 0]
      simp only [Nat.sub_zero, List.length_map]
      calc ((issues.take m).filter (fun i => i.pull_request.isNone)).length
          ≤ (issues.take m).length := List.length_filter_le _ _
        _ ≤ m := by rw [List.length_take]; exact Nat.min_le_left m issues.length
  · cases hre : repo state with
    | error e => simp [fetch_issues, ht, hre]
    | ok issues => simp [fetch_issues, ht, hre, issueLoop_cap_zero issues 0]

/-- Witness for C3 (amended): one qualifying issue under cap 1. -/
theorem fetch_issues_cap_bound_witness :
    (DataFrame.mk issueColumns [mkIssueRecord sampleIssue]).rows.length ≤ 1 ∧
    fetch_issues (some "x") (fun _ => Except.ok [sampleIssue]) "all" (some 0) =
      fetch_issues (some "x") (fun _ => Except.ok [sampleIssue]) "all" none :=
  fetch_issues_cap_bound "x" (by decide) (fun _ => Except.ok [sampleIssue]) "all" 1
    (by decide) (DataFrame.mk issueColumns [mkIssueRecord sampleIssue]) rfl

/-- C4: in every issue record produced by `fetch_issues`, `open_duration_days`
is `none` exactly when at least one of `created_at`/`closed_at` is absent,
and when both are present it equals the whole-day span with floor semantics
(`timedelta.days` floor-divides the span by 86400 seconds): 23 hours gives 0
days, 5 days 3 hours gives 5. -/
theorem fetch_issues_open_duration (t : String) (ht : t ≠ "")
    (issues : String → List UpstreamIssue) (state : String) (maxi : Option Nat)
    (df : DataFrame IssueRecord)
    (hdf : fetch_issues (some t) (fun s => Except.ok (issues s)) state maxi = Except.ok df)
    (r : IssueRecord) (hr : r ∈ df.rows) :
    (r.open_duration_days = none ↔ (r.created_at = none ∨ r.closed_at = none)) ∧
    (r.created_at.isSome → r.closed_at.isSome →
      r.open_duration_days =
        some (Int.fdiv (r.closed_at.getD 0 - r.created_at.getD 0) secondsPerDay)) := by
  rw [(fetch_issues_ok_rows t ht issues state maxi df hdf).2] at hr
  obtain ⟨i, hi, hp, hri⟩ := issueLoop_mem maxi (issues state) 0 r hr
  subst hri
  unfold mkIssueRecord
  cases hcr : i.created_at <;> cases hcl : i.closed_at <;> simp [hcr, hcl]

/-- Witness for C4: an issue closed 23 hours (82800 s) after creation has
duration `some 0` — both timestamps present, floor of 82800 / 86400. -/
theorem fetch_issues_open_duration_witness :
    ((mkIssueRecord sampleIssue).open_duration_days = none ↔
      ((mkIssueRecord sampleIssue).created_at = none ∨
       (mkIssueRecord sampleIssue).closed_at = none)) ∧
    ((mkIssueRecord sampleIssue).created_at.isSome →
      (mkIssueRecord sampleIssue).closed_at.isSome →
      (mkIssueRecord sampleIssue).open_duration_days =
        some (Int.fdiv ((mkIssueRecord sampleIssue).closed_at.getD 0 -
          (mkIssueRecord sampleIssue).created_at.getD 0) secondsPerDay)) :=
  fetch_issues_open_duration "x" (by decide) (fun _ => [sampleIssue]) "all" none
    (DataFrame.mk issueColumns [mkIssueRecord sampleIssue]) rfl
    (mkIssueRecord sampleIssue) (List.mem_singleton.mpr rfl)

/-- C5: no item carrying pull-request linkage is ever materialized into the
issues table: every row of a `fetch_issues` result is built from an upstream
item whose `pull_request` field is `none`, for every state filter and cap —
the filter runs before record construction. -/
theorem fetch_issues_excludes_pull_requests (t : String) (ht : t ≠ "")
    (issues : String → List UpstreamIssue) (state : String) (maxi : Option Nat)
    (df : DataFrame IssueRecord)
    (hdf : fetch_issues (some t) (fun s => Except.ok (issues s)) state maxi = Except.ok df)
    (r : IssueRecord) (hr : r ∈ df.rows) :
    ∃ i, i ∈ issues state ∧ i.pull_request = none ∧ r = mkIssueRecord i := by
  rw [(fetch_issues_ok_rows t ht issues state maxi df hdf).2] at hr
  exact issueLoop_mem maxi (issues state) 0 r hr

/-- Witness for C5: with upstream [pull request, plain issue] the single row
comes from an item without pull-request linkage. -/
theorem fetch_issues_excludes_pull_requests_witness :
    ∃ i, i ∈ [samplePR, sampleIssue] ∧ i.pull_request = none ∧
      mkIssueRecord sampleIssue = mkIssueRecord i :=
  fetch_issues_excludes_pull_requests "x" (by decide) (fun _ => [samplePR, sampleIssue])
    "all" none (DataFrame.mk issueColumns [mkIssueRecord sampleIssue]) rfl
    (mkIssueRecord sampleIssue) (List.mem_singleton.mpr rfl)

/-- C6: every commit record produced by `fetch_commits` has a message free of
line-break characters; the message is exactly the first line of the full
commit message (a line-break-free prefix whose remainder is empty or starts
with a line boundary); an empty full message gives the empty message. The
field is a plain string, never an optional one, by its type. -/
theorem fetch_commits_message_first_line (t : String) (ht : t ≠ "")
    (cs : List UpstreamCommit) (maxc : Option Nat) (df : DataFrame CommitRecord)
    (hdf : fetch_commits (some t) (Except.ok cs) maxc = Except.ok df)
    (r : CommitRecord) (hr : r ∈ df.rows) :
    (∀ ch ∈ r.message, isLineBreak ch = false) ∧
    ∃ c, c ∈ cs ∧ r = normalizeCommit c ∧
      (∃ rest, c.commit.message = r.message ++ rest ∧
        (rest = [] ∨ ∃ ch rest2, rest = ch :: rest2 ∧ isLineBreak ch = true)) ∧
      (c.commit.message = [] → r.message = []) := by
  rw [(fetch_commits_ok_rows t ht cs maxc df hdf).2] at hr
  obtain ⟨c, hc, hrc⟩ := commitLoop_mem maxc cs 0 r hr
  have hmsg : r.message = firstLine c.commit.message := by
    rw [hrc]; unfold normalizeCommit; cases c.commit.author <;> rfl
  constructor
  · intro ch hch
    exact mem_firstLine c.commit.message ch (hmsg ▸ hch)
  · refine ⟨c, hc, hrc, ?_, ?_⟩
    · rw [hmsg]
      exact firstLine_decomp c.commit.message
    · intro h0
      rw [hmsg, h0, firstLine_of_nil]

/-- Witness for C6: the two-line message commit yields its first line. -/
theorem fetch_commits_message_first_line_witness :
    (∀ ch ∈ (normalizeCommit sampleCommit).message, isLineBreak ch = false) ∧
    ∃ c, c ∈ [sampleCommit] ∧ normalizeCommit sampleCommit = normalizeCommit c ∧
      (∃ rest, c.commit.message = (normalizeCommit sampleCommit).message ++ rest ∧
        (rest = [] ∨ ∃ ch rest2, rest = ch :: rest2 ∧ isLineBreak ch = true)) ∧
      (c.commit.message = [] → (normalizeCommit sampleCommit).message = []) :=
  fetch_commits_message_first_line "x" (by decide) [sampleCommit] none
    (DataFrame.mk commitColumns [normalizeCommit sampleCommit]) rfl
    (normalizeCommit sampleCommit) (List.mem_singleton.mpr rfl)

/-- C7: with no token in the environment both operations fail with the
missing-credential error, whatever the upstream collaborator holds and before
it is consulted (the result is the same for every upstream value, including a
rejecting one); with a nonempty token present, neither operation ever returns
the missing-credential error. -/
theorem fetch_missing_credential (t : String) (ht : t ≠ "")
    (upstream : Except Unit (List UpstreamCommit)) (maxc : Option Nat)
    (repo : String → Except Unit (List UpstreamIssue)) (state : String)
    (maxi : Option Nat) :
    fetch_commits none upstream maxc = Except.error FetchError.missingCredential ∧
    fetch_issues none repo state maxi = Except.error FetchError.missingCredential ∧
    fetch_commits (some t) upstream maxc ≠ Except.error FetchError.missingCredential ∧
    fetch_issues (some t) repo state maxi ≠ Except.error FetchError.missingCredential := by
  refine ⟨rfl, rfl, ?_, ?_⟩
  · simp only [fetch_commits, Option.getD_some, if_neg ht]
    cases upstream with
    | error e => simp
    | ok cs => simp
  · simp only [fetch_issues, Option.getD_some, if_neg ht]
    cases hre : repo state with
    | error e => simp [hre]
    | ok issues => simp [hre]

/-- Witness for C7 with token "x" and one-item upstream streams. -/
theorem fetch_missing_credential_witness :
    fetch_commits none (Except.ok [sampleCommit]) none =
      Except.error FetchError.missingCredential ∧
    fetch_issues none (fun _ => Except.ok [sampleIssue]) "all" none =
      Except.error FetchError.missingCredential ∧
    fetch_commits (some "x") (Except.ok [sampleCommit]) none ≠
      Except.error FetchError.missingCredential ∧
    fetch_issues (some "x") (fun _ => Except.ok [sampleIssue]) "all" none ≠
      Except.error FetchError.missingCredential :=
  fetch_missing_credential "x" (by decide) (Except.ok [sampleCommit]) none
    (fun _ => Except.ok [sampleIssue]) "all" none

/-- C8: every commit record produced by `fetch_commits` has author, email and
date all `none` together when the commit's authorship metadata is absent, and
all three populated from that metadata when present — never a partial mix. -/
theorem fetch_commits_author_all_or_nothing (t : String) (ht : t ≠ "")
    (cs : List UpstreamCommit) (maxc : Option Nat) (df : DataFrame CommitRecord)
    (hdf : fetch_commits (some t) (Except.ok cs) maxc = Except.ok df)
    (r : CommitRecord) (hr : r ∈ df.rows) :
    ∃ c, c ∈ cs ∧ r = normalizeCommit c ∧
      ((c.commit.author = none ∧ r.author = none ∧ r.email = none ∧ r.date = none) ∨
       (∃ a, c.commit.author = some a ∧ r.author = some a.name ∧
         r.email = some a.email ∧ r.date = some a.date)) := by
  rw [(fetch_commits_ok_rows t ht cs maxc df hdf).2] at hr
  obtain ⟨c, hc, hrc⟩ := commitLoop_mem maxc cs 0 r hr
  refine ⟨c, hc, hrc, ?_⟩
  cases ha : c.commit.author with
  | none =>
    exact Or.inl ⟨rfl, by simp [hrc, normalizeCommit, ha]⟩
  | some a =>
    exact Or.inr ⟨a, rfl, by simp [hrc, normalizeCommit, ha]⟩

/-- Witness for C8: a commit with authorship metadata populates all three. -/
theorem fetch_commits_author_all_or_nothing_witness :
    ∃ c, c ∈ [authoredCommit] ∧
      normalizeCommit authoredCommit = normalizeCommit c ∧
      ((c.commit.author = none ∧ (normalizeCommit authoredCommit).author = none ∧
        (normalizeCommit authoredCommit).email = none ∧
        (normalizeCommit authoredCommit).date = none) ∨
       (∃ a, c.commit.author = some a ∧
         (normalizeCommit authoredCommit).author = some a.name ∧
         (normalizeCommit authoredCommit).email = some a.email ∧
         (normalizeCommit authoredCommit).date = some a.date)) :=
  fetch_commits_author_all_or_nothing "x" (by decide) [authoredCommit] none
    (DataFrame.mk commitColumns [normalizeCommit authoredCommit]) rfl
    (normalizeCommit authoredCommit) (List.mem_singleton.mpr rfl)

/-- C9 counterexample: with a cap of zero the commit loop still pulls one item
from the stream — the `for` pulls each item before the break test runs — so it
materializes more upstream items than the zero requested. -/
theorem commit_loop_pulls_past_zero_cap :
    (commitLoop (some 0) 0 [sampleCommit]).2 = 1 ∧
    0 < (commitLoop (some 0) 0 [sampleCommit]).2 :=
  ⟨rfl, by decide⟩

/-- C9 (amended): each fetch loop pulls one item past its cap: with a given
cap m the commit loop pulls exactly min(k, m+1) items from a k-item stream —
the item at index m is materialized before the break test fires — and
likewise the issue loop for a positive cap (a zero issue cap disables capping
instead). So at most m+1 items are pulled, never the full stream, but not at
most m. -/
theorem fetch_loops_pull_min_cap_succ (m : Nat) (hm : 0 < m)
    (cs : List UpstreamCommit) (issues : List UpstreamIssue) :
    (commitLoop (some m) 0 cs).2 = min cs.length (m + 1) ∧
    (issueLoop (some m) 0 issues).2 = min issues.length (m + 1) := by
  constructor
  · simpa using commitLoop_pulls_some m cs 0
  · simpa using issueLoop_pulls_some m hm issues 0

/-- Witness for C9 (amended): cap 1 over three-item streams pulls 2 items. -/
theorem fetch_loops_pull_min_cap_succ_witness :
    (commitLoop (some 1) 0 [sampleCommit, authoredCommit, sampleCommit]).2 =
      min [sampleCommit, authoredCommit, sampleCommit].length 2 ∧
    (issueLoop (some 1) 0 [samplePR, sampleIssue, sampleIssue]).2 =
      min [samplePR, sampleIssue, sampleIssue].length 2 :=
  fetch_loops_pull_min_cap_succ 1 (by decide)
    [sampleCommit, authoredCommit, sampleCommit] [samplePR, sampleIssue, sampleIssue]

/-- C10: a token variable set to the empty string behaves exactly like an
absent variable — `if not token` tests falsiness, not presence — so both
operations fail with the missing-credential error, for every upstream value
alike. -/
theorem fetch_empty_token_like_absent
    (upstream : Except Unit (List UpstreamCommit)) (maxc : Option Nat)
    (repo : String → Except Unit (List UpstreamIssue)) (state : String)
    (maxi : Option Nat) :
    fetch_commits (some "") upstream maxc = fetch_commits none upstream maxc ∧
    fetch_commits (some "") upstream maxc = Except.error FetchError.missingCredential ∧
    fetch_issues (some "") repo state maxi = fetch_issues none repo state maxi ∧
    fetch_issues (some "") repo state maxi = Except.error FetchError.missingCredential :=
  ⟨rfl, rfl, rfl, rfl⟩

end RepoMiner
